import Mathlib

/-!
Verification development for the calendar-agent repository.

Shallow embedding of the deterministic core of
`calendar-agent/calendar_agent.py` and `calendar-agent/api_server.py`:
score validation and status derivation for the burnout cache, the
batch-refresh cache write, the voice-driven score adjustment, the
free-slot sweep, the schedule-optimization validator, the event
normalization, the model-fallback chains, and the single-date
prediction gate.

Timestamps are modelled as minutes (`Nat`); the calendar date of a
timestamp is its day index `t / 1440`.  Calendar dates that occur as
JSON keys are modelled as the strings the code uses.
-/

namespace CalendarAgent

/-- A stored burnout prediction, as kept under the `predictions` key of the
per-user cache file (`score`, `status`, `reasoning`). -/
structure Pred where
  score : Nat
  status : String
  reasoning : String
deriving DecidableEq

/-- The `score` field of one oracle prediction, as JSON can deliver it:
an integer, a non-integral number (a JSON float, or a numeric string
accepted by Python `float`), or a value `float()` rejects. -/
inductive JScore where
  | int (n : Int)
  | num (q : Rat)
  | bad
deriving DecidableEq

/-- Truncation toward zero of a rational, the semantics of Python
`int(float(x))` on the exact value `x`. -/
def truncToZero (q : Rat) : Int :=
  Int.tdiv q.num (q.den : Int)

/-- Embeds the score validation of `predict_burnout_batch_tool`
(calendar_agent.py lines 1690-1696) and `predict_burnout_tool`
(lines 1309-1316): `score = pred.get('score', 50)`; a non-`int` value
goes through `int(float(score))`, falling back to `50` on
`ValueError`/`TypeError`; the result is clamped by
`max(0, min(100, score))`. -/
def validateScore (s : JScore) : Nat :=
  let v : Int :=
    match s with
    | .int n => n
    | .num q => truncToZero q
    | .bad => 50
  (max 0 (min 100 v)).toNat

/-- Status derivation used by the burnout prediction tools
(calendar_agent.py lines 1698-1706 and 1319-1326): `score <= 30` is
`stable`, `<= 50` is `building`, `<= 70` is `high-risk`, else
`critical`. -/
def statusOf (score : Nat) : String :=
  if score ≤ 30 then "stable"
  else if score ≤ 50 then "building"
  else if score ≤ 70 then "high-risk"
  else "critical"

/-- Status derivation used by the voice-adjustment applier
(api_server.py lines 1251-1258): `new_score >= 70` is `critical`,
`>= 50` is `high-risk`, `>= 30` is `building`, else `stable`. -/
def voiceStatus (score : Nat) : String :=
  if 70 ≤ score then "critical"
  else if 50 ≤ score then "high-risk"
  else if 30 ≤ score then "building"
  else "stable"

/-- Definition that follows the spec's words for comparison: a
non-integral score "coerced via rounding" (round half away is the
Python `round`-free reading; Mathlib `round` rounds half up, which
agrees with rounding on the sample input used below). -/
def specRoundScore (q : Rat) : Int :=
  round q

/-- One entry of the oracle's batch response `predictions` array:
`date` (may be missing; the empty string is Python-falsy and also
skipped), `score`, `reasoning`. -/
structure OPred where
  date : Option String
  score : JScore
  reasoning : String
deriving DecidableEq

/-- Builds one validated cache prediction from an oracle entry
(calendar_agent.py lines 1690-1712): validated score plus the
re-derived status. -/
def validatedEntry (p : OPred) : Pred :=
  { score := validateScore p.score
    status := statusOf (validateScore p.score)
    reasoning := p.reasoning }

/-- Embeds the validation loop of `predict_burnout_batch_tool`
(calendar_agent.py lines 1683-1712): entries whose `date` is missing or
falsy are skipped; the rest are stored keyed by their date string.
The Python dict is modelled as an association list in insertion order
(for duplicate dates the dict keeps the last entry; lookups below read
from the right). -/
def validatePredictions (resp : List OPred) : List (String × Pred) :=
  resp.filterMap fun p =>
    p.date.bind fun d => if d = "" then none else some (d, validatedEntry p)

/-- The per-user burnout cache file
(`user_data/<user_id>_burnout_cache.json`).  `voice_updated_at` is the
extra key the voice endpoint adds (api_server.py line 1274); it stands
for the non-prediction fields a cache file can carry beyond the four
the batch tool writes. -/
structure Cache where
  user_id : String
  cached_at : String
  sleep_time : String
  wake_time : String
  predictions : List (String × Pred)
  voice_updated_at : Option String
deriving DecidableEq

/-- Embeds the cache write of `predict_burnout_batch_tool`
(calendar_agent.py lines 1714-1725): a fresh `cache_data` dict holding
exactly `user_id`, `cached_at`, `sleep_time`, `wake_time` and the new
`predictions` is dumped over the file.  The previous file content is
not read back for this write, so it appears only through the absence
of its fields here. -/
def cacheAfterRefresh (user_id now sleep_time wake_time : String)
    (resp : List OPred) : Cache :=
  { user_id := user_id
    cached_at := now
    sleep_time := sleep_time
    wake_time := wake_time
    predictions := validatePredictions resp
    voice_updated_at := none }

/-- The key set of a predictions map. -/
def predKeys (m : List (String × Pred)) : List String :=
  m.map Prod.fst

/-- A matched event produced by the transcript analysis in
`analyze_mood_and_update_burnout` (api_server.py): its title and its
date.  The code keys dates by ISO date string; ISO date strings sort
lexicographically in chronological order, so dates are modelled as day
indices (`Nat`) whose numeric order is the same order. -/
structure MatchedEvent where
  title : String
  date : Nat
deriving DecidableEq

/-- The distinct matched dates in ascending order:
`sorted_dates = sorted(date_counts.keys())` (api_server.py line 1239),
where `date_counts` is keyed by the matched events' dates. -/
def voiceDates (matched : List MatchedEvent) : List Nat :=
  List.insertionSort (· ≤ ·) (matched.map (·.date)).dedup

/-- One voice adjustment of a cached prediction (api_server.py lines
1246-1258): `new_score = min(100, old_score + adjustment)` and the
status re-derived through `voiceStatus`. -/
def voiceAdjust (p : Pred) (adj : Nat) : Pred :=
  let ns := min 100 (p.score + adj)
  { score := ns, status := voiceStatus ns, reasoning := p.reasoning }

/-- One iteration of the adjustment loop (api_server.py lines
1241-1258): date `d` at position `i` of the sorted date list receives
`+5` when `i = 0` and `+3` otherwise, but only when `d` is already in
the predictions map; otherwise the map is untouched. -/
def stepAdjust (preds : Nat → Option Pred) (i : Nat) (d : Nat) :
    Nat → Option Pred :=
  match preds d with
  | none => preds
  | some p =>
    fun d2 => if d2 = d then some (voiceAdjust p (if i = 0 then 5 else 3)) else preds d2

/-- The adjustment loop over the sorted distinct dates, carrying the
enumeration index. -/
def applyDates (i : Nat) (ds : List Nat) (preds : Nat → Option Pred) :
    Nat → Option Pred :=
  match ds with
  | [] => preds
  | d :: rest => applyDates (i + 1) rest (stepAdjust preds i d)

/-- Embeds the cache-update block of `analyze_mood_and_update_burnout`
(api_server.py lines 1211-1277): the predictions map is modified only
when `is_stressed` holds and at least one event matched. -/
def voiceApply (is_stressed : Bool) (matched : List MatchedEvent)
    (preds : Nat → Option Pred) : Nat → Option Pred :=
  if is_stressed && !matched.isEmpty then applyDates 0 (voiceDates matched) preds
  else preds

/-- A normalized day event as used by the nap/meal/burnout tools:
title, start and `end` timestamps in minutes (field `end_` for the
Python key `end`). -/
structure Ev where
  title : String
  start : Nat
  end_ : Nat
deriving DecidableEq

/-- Order on events by start time, the sort key of
`day_events.sort(key=lambda x: x['start'])`. -/
def evLE (a b : Ev) : Prop := a.start ≤ b.start

instance : DecidableRel evLE := fun a b => inferInstanceAs (Decidable (a.start ≤ b.start))

instance : IsTotal Ev evLE := ⟨fun a b => Nat.le_total a.start b.start⟩

instance : IsTrans Ev evLE := ⟨fun _ _ _ => Nat.le_trans⟩

/-- Embeds the gap sweep of `calculate_nap_time_tool`
(calendar_agent.py lines 301-322) for one duration threshold
`minDur` (the code runs the same sweep for 30 and 90 minutes in one
pass): walk the events with a cursor, emit `(cursor, event.start)`
when the gap is at least `minDur`, advance the cursor to
`max(cursor, event.end)`, and finally emit the trailing gap to
`dayEnd` under the same rule. -/
def findGaps (minDur dayEnd : Nat) : Nat → List Ev → List (Nat × Nat)
  | cursor, [] =>
    if cursor < dayEnd && minDur ≤ dayEnd - cursor then [(cursor, dayEnd)] else []
  | cursor, e :: rest =>
    (if cursor < e.start && minDur ≤ e.start - cursor then [(cursor, e.start)] else [])
      ++ findGaps minDur dayEnd (max cursor e.end_) rest

/-- The free-slot computation of `calculate_nap_time_tool`
(calendar_agent.py lines 294-326): with no events the whole
`[dayStart, dayEnd]` window is emitted as one slot; otherwise the
events are sorted by start (line 277) and swept. -/
def freeSlots (events : List Ev) (dayStart dayEnd minDur : Nat) : List (Nat × Nat) :=
  if events.isEmpty then [(dayStart, dayEnd)]
  else findGaps minDur dayEnd dayStart (List.insertionSort evLE events)

/-- A fixed or malleable event as assembled by `optimize_schedule_tool`
(calendar_agent.py lines 1833-1846). -/
structure PEvent where
  id : String
  title : String
  start : Nat
  end_ : Nat
deriving DecidableEq

/-- An oracle schedule-change proposal.  The three timestamp fields the
validator re-parses (`proposed_start`, `proposed_end`,
`current_start`) are modelled by their parse results: `none` stands
for a string `datetime.fromisoformat` rejects. -/
structure Proposal where
  event_id : String
  event_title : String
  action : String
  current_start : Option Nat
  proposed_start : Option Nat
  proposed_end : Option Nat
deriving DecidableEq

/-- The calendar date (day index) of a timestamp in minutes, the
embedding of `.date()` on a naive datetime. -/
def dateOf (t : Nat) : Nat := t / 1440

/-- `id_lookup = {ev['id']: ev for ev in malleable_events}`
(calendar_agent.py line 2009); a dict comprehension keeps the last
event for a duplicated id, hence the lookup from the reversed list. -/
def idLookup (ms : List PEvent) (k : String) : Option PEvent :=
  ms.reverse.find? (fun e => e.id = k)

/-- `title_lookup = {ev['title'].lower(): ev for ev in malleable_events}`
(calendar_agent.py line 2010), queried with the proposal title
lower-cased. -/
def titleLookup (ms : List PEvent) (t : String) : Option PEvent :=
  ms.reverse.find? (fun e => e.title.toLower = t)

/-- The conflict scan of the validator (calendar_agent.py lines
2096-2102): some fixed event on the same date as `ps` satisfies
`prop_start < fixed.end and prop_end > fixed.start`. -/
def overlapsFixed (fixed : List PEvent) (ps pe : Nat) : Bool :=
  fixed.any fun f => decide (dateOf f.start = dateOf ps ∧ ps < f.end_ ∧ f.start < pe)

/-- Resolution step of the validator (calendar_agent.py lines
2059-2070): a direct id match keeps the proposal; otherwise a
lower-cased title match against the malleable set rewrites
`event_id` to the matched event's id; an unresolved proposal is
dropped. -/
def resolveProposal (malleable : List PEvent) (c : Proposal) : Option Proposal :=
  if (idLookup malleable c.event_id).isSome then some c
  else
    match titleLookup malleable c.event_title.toLower with
    | some ev => some { c with event_id := ev.id }
    | none => none

/-- Constraint step of the validator (calendar_agent.py lines
2072-2108): re-parse `proposed_start`, `proposed_end` and
`current_start` (any parse failure drops the proposal), reject a
cross-day move, reject a conflict with a fixed event on the proposed
date. -/
def checkProposal (fixed : List PEvent) (c2 : Proposal) : Option Proposal :=
  match c2.proposed_start, c2.proposed_end, c2.current_start with
  | some ps, some pe, some cs =>
    if dateOf ps ≠ dateOf cs then none
    else if overlapsFixed fixed ps pe then none
    else some c2
  | _, _, _ => none

/-- Validation of a single `move` proposal (calendar_agent.py lines
2058-2108): resolution followed by the timestamp and conflict
checks. -/
def validateOne (malleable fixed : List PEvent) (c : Proposal) : Option Proposal :=
  (resolveProposal malleable c).bind (checkProposal fixed)

/-- The change-set validator of `optimize_schedule_tool`
(calendar_agent.py lines 2004-2108): keep only `action == 'move'`
proposals, then validate each one. -/
def validateChanges (malleable fixed : List PEvent) (changes : List Proposal) :
    List Proposal :=
  (changes.filter (fun c => c.action == "move")).filterMap (validateOne malleable fixed)

/-- The `end` timestamp field of a raw event record: absent (or
falsy), present but not a string, or a string with its parse result. -/
inductive EndField where
  | missing
  | nonString
  | strField (parse : Option Nat)
deriving DecidableEq

/-- A raw event record as seen by the normalization loops
(calendar_agent.py lines 1384-1434 and 633-673).  `startField` is
`none` when no start timestamp field is present (or it is falsy),
`some none` when the start string does not parse, and `some (some t)`
when it parses to `t`. -/
structure RawEvent where
  title : String
  startField : Option (Option Nat)
  endField : EndField
deriving DecidableEq

/-- A normalized calendar event (`{'title', 'start', 'end', ...}`). -/
structure CalendarEvent where
  title : String
  start : Nat
  end_ : Nat
deriving DecidableEq

/-- Embeds one iteration of the normalization loops
(calendar_agent.py lines 1384-1434, same shape at 633-673): a record
without a usable start is skipped; an unparseable start (or end)
string raises `ValueError`, caught by the `except ... continue`, so
the record is skipped; a missing or non-string end becomes
`start + 1 hour`; a parseable end string is taken as given. -/
def normalizeEvent (e : RawEvent) : Option CalendarEvent :=
  match e.startField with
  | none => none
  | some none => none
  | some (some s) =>
    match e.endField with
    | .strField none => none
    | .strField (some t) => some ⟨e.title, s, t⟩
    | .missing => some ⟨e.title, s, s + 60⟩
    | .nonString => some ⟨e.title, s, s + 60⟩

/-- The whole normalization loop: malformed records are dropped and
processing continues. -/
def normalizeAll (es : List RawEvent) : List CalendarEvent :=
  es.filterMap normalizeEvent

/-- The outcome of one oracle call: a response text, a quota error
(`'429' in str(e) or 'RESOURCE_EXHAUSTED' in str(e)`), a
model-not-found error (`'404' in str(e) or 'NOT_FOUND' in str(e)`), or
any other exception. -/
inductive Outcome where
  | ok (text : String)
  | quota
  | notFound
  | other
deriving DecidableEq

/-- The result of running a fallback chain: a response text, a fatal
error propagated out of the loop, or an exhausted model list. -/
inductive ChainResult where
  | success (text : String)
  | fatal
  | exhausted
deriving DecidableEq

/-- Embeds the model loop of `predict_burnout_batch_tool`
(calendar_agent.py lines 1625-1658; the same loop appears in
`predict_burnout_tool`, `calculate_nap_time_tool` and
`calculate_meal_windows_tool`): the oracle is indexed by model name
and attempt number; a quota error is retried once on the same model
after a 2-second sleep, and any second failure advances to the next
model; a not-found error advances; any other error is re-raised and
ends the chain. -/
def burnoutChain (oracle : String → Nat → Outcome) : List String → ChainResult
  | [] => .exhausted
  | m :: rest =>
    match oracle m 0 with
    | .ok s => .success s
    | .quota =>
      match oracle m 1 with
      | .ok s => .success s
      | _ => burnoutChain oracle rest
    | .notFound => burnoutChain oracle rest
    | .other => .fatal

/-- Embeds the model loop of `optimize_schedule_tool`
(calendar_agent.py lines 1973-1985): every exception stores
`last_error` and continues to the next model (after a 2-second sleep
for quota errors); no error class is fatal and no model is retried. -/
def optimizeChain (oracle : String → Nat → Outcome) : List String → Option String
  | [] => none
  | m :: rest =>
    match oracle m 0 with
    | .ok s => some s
    | .quota => optimizeChain oracle rest
    | .notFound => optimizeChain oracle rest
    | .other => optimizeChain oracle rest

/-- The `models_to_try` list of the burnout/nap/meal tools
(calendar_agent.py lines 1611-1620). -/
def burnoutModels : List String :=
  ["gemini-3-flash-preview", "gemini-2.0-flash-lite", "gemma-3-12b-it",
   "gemma-3-27b-it", "gemma-3-4b-it", "gemma-3-1b-it",
   "gemini-2.5-flash", "gemini-2.5-flash-lite"]

/-- The `models_to_try` list of `optimize_schedule_tool`
(calendar_agent.py lines 1963-1968). -/
def optimizeModels : List String :=
  ["gemini-3-flash-preview", "gemini-2.0-flash-lite", "gemma-3-12b-it",
   "gemini-2.5-flash"]

/-- The result of the date gate at the top of `predict_burnout_tool`. -/
inductive SingleGate where
  | errPast
  | errTooFar
  | proceed
deriving DecidableEq

/-- Embeds the date checks of `predict_burnout_tool`
(calendar_agent.py lines 990-999): `days_diff = (target - today).days`;
a negative difference returns the past-date error and a difference
greater than 7 returns the too-far error, both before any event
processing or oracle call; only `proceed` reaches the oracle. -/
def singleDateGate (today target : Int) : SingleGate :=
  if target - today < 0 then .errPast
  else if 7 < target - today then .errTooFar
  else .proceed

/-! ## Shared helper lemmas -/

/-- Characterization of the key set produced by the batch validation:
a non-empty date string is a stored key exactly when some oracle entry
carries it. -/
theorem mem_predKeys_validatePredictions (resp : List OPred) (d : String) (hd : d ≠ "") :
    d ∈ predKeys (validatePredictions resp) ↔ ∃ p ∈ resp, p.date = some d := by
  unfold predKeys validatePredictions
  simp only [List.mem_map, List.mem_filterMap, Option.bind_eq_some]
  constructor
  · rintro ⟨⟨d2, pr⟩, ⟨p, hp, d3, hdate, hif⟩, rfl⟩
    split at hif
    · exact absurd hif (by simp)
    · simp only [Option.some.injEq, Prod.mk.injEq] at hif
      exact ⟨p, hp, hif.1 ▸ hdate⟩
  · rintro ⟨p, hp, hdate⟩
    exact ⟨(d, validatedEntry p), ⟨p, hp, d, hdate, by simp [hd]⟩, rfl⟩

/-- A map lookup at a key different from the adjusted one is untouched
by one adjustment step. -/
theorem stepAdjust_ne (preds : Nat → Option Pred) (i d d2 : Nat)
    (h : d2 ≠ d) : stepAdjust preds i d d2 = preds d2 := by
  unfold stepAdjust
  cases preds d <;> simp [h]

/-- One adjustment step never creates an entry. -/
theorem stepAdjust_none (preds : Nat → Option Pred) (i d d2 : Nat)
    (h : preds d2 = none) : stepAdjust preds i d d2 = none := by
  unfold stepAdjust
  cases hz : preds d
  · exact h
  · by_cases hdd : d2 = d
    · rw [hdd] at h; rw [h] at hz; cases hz
    · simp [hdd, h]

/-- A date outside the processed list is untouched by the adjustment
loop. -/
theorem applyDates_not_mem (ds : List Nat) (i : Nat)
    (preds : Nat → Option Pred) (d : Nat) (h : d ∉ ds) :
    applyDates i ds preds d = preds d := by
  induction ds generalizing i preds with
  | nil => rfl
  | cons a rest ih =>
    simp only [List.mem_cons, not_or] at h
    rw [applyDates, ih _ _ h.2, stepAdjust_ne _ _ _ _ h.1]

/-- The adjustment loop never creates an entry. -/
theorem applyDates_none (ds : List Nat) (i : Nat)
    (preds : Nat → Option Pred) (d : Nat) (h : preds d = none) :
    applyDates i ds preds d = none := by
  induction ds generalizing i preds with
  | nil => exact h
  | cons a rest ih =>
    rw [applyDates]
    exact ih _ _ (stepAdjust_none _ _ _ _ h)

/-- A cached date processed at a positive enumeration index receives
the `+3` adjustment. -/
theorem applyDates_mem_pos (ds : List Nat) (i : Nat)
    (preds : Nat → Option Pred) (d : Nat) (p : Pred)
    (hnd : ds.Nodup) (hmem : d ∈ ds) (hp : preds d = some p) (hi : i ≠ 0) :
    applyDates i ds preds d = some (voiceAdjust p 3) := by
  induction ds generalizing i preds with
  | nil => cases hmem
  | cons a rest ih =>
    rw [applyDates]
    rcases List.mem_cons.mp hmem with rfl | hdrest
    · have hrest : d ∉ rest := (List.nodup_cons.mp hnd).1
      rw [applyDates_not_mem _ _ _ _ hrest]
      unfold stepAdjust
      rw [hp]
      simp [hi]
    · have hda : d ≠ a := fun he => (List.nodup_cons.mp hnd).1 (he ▸ hdrest)
      have := stepAdjust_ne preds i a d hda
      exact ih _ _ (List.nodup_cons.mp hnd).2 hdrest (this.trans hp) (Nat.succ_ne_zero i)

/-- The sorted distinct date list of the voice applier has no
duplicates. -/
theorem voiceDates_nodup (matched : List MatchedEvent) : (voiceDates matched).Nodup :=
  (List.perm_insertionSort _ _).nodup_iff.mpr (List.nodup_dedup _)

/-- `voiceDates` of no matched events is empty. -/
theorem voiceDates_nil : voiceDates [] = [] := rfl

/-- Every emitted gap starts at or after the cursor and is non-empty. -/
theorem findGaps_bounds (minDur dayEnd : Nat) (L : List Ev) (c : Nat) :
    ∀ s ∈ findGaps minDur dayEnd c L, c ≤ s.1 ∧ s.1 < s.2 := by
  induction L generalizing c with
  | nil =>
    intro s hs
    unfold findGaps at hs
    split at hs
    · rcases List.mem_singleton.mp hs with rfl
      exact ⟨Nat.le_refl c, by simp_all⟩
    · cases hs
  | cons e rest ih =>
    intro s hs
    unfold findGaps at hs
    rcases List.mem_append.mp hs with hhead | htail
    · split at hhead
      · rcases List.mem_singleton.mp hhead with rfl
        exact ⟨Nat.le_refl c, by simp_all⟩
      · cases hhead
    · obtain ⟨h1, h2⟩ := ih (max c e.end_) s htail
      exact ⟨Nat.le_trans (Nat.le_max_left _ _) h1, h2⟩

/-- For events sorted by start, every emitted gap is disjoint from
every event of the list. -/
theorem findGaps_disjoint (minDur dayEnd : Nat) (L : List Ev) (c : Nat)
    (hsort : L.Pairwise evLE) :
    ∀ s ∈ findGaps minDur dayEnd c L, ∀ e ∈ L, s.2 ≤ e.start ∨ e.end_ ≤ s.1 := by
  induction L generalizing c with
  | nil => intro s _ e he; cases he
  | cons a rest ih =>
    intro s hs e he
    obtain ⟨hhead, htl⟩ := List.pairwise_cons.mp hsort
    unfold findGaps at hs
    rcases List.mem_append.mp hs with hh | ht
    · have hsa : s.2 = a.start := by
        split at hh
        · rcases List.mem_singleton.mp hh with rfl; rfl
        · cases hh
      rcases List.mem_cons.mp he with rfl | hrest
      · exact Or.inl (Nat.le_of_eq hsa)
      · exact Or.inl (hsa ▸ hhead e hrest)
    · rcases List.mem_cons.mp he with rfl | hrest
      · have h1 := (findGaps_bounds minDur dayEnd rest (max c e.end_) s ht).1
        exact Or.inr (Nat.le_trans (Nat.le_max_right _ _) h1)
      · exact ih (max c a.end_) htl s ht e hrest

/-- For sorted events with non-negative durations, the emitted gaps
are pairwise disjoint, in order. -/
theorem findGaps_pairwise (minDur dayEnd : Nat) (L : List Ev) (c : Nat)
    (hsort : L.Pairwise evLE) (hpos : ∀ e ∈ L, e.start ≤ e.end_) :
    (findGaps minDur dayEnd c L).Pairwise (fun a b => a.2 ≤ b.1) := by
  induction L generalizing c with
  | nil =>
    unfold findGaps
    split
    · exact List.pairwise_singleton _ _
    · exact List.Pairwise.nil
  | cons a rest ih =>
    obtain ⟨_, htl⟩ := List.pairwise_cons.mp hsort
    unfold findGaps
    refine List.pairwise_append.mpr ⟨?_, ih (max c a.end_) htl (fun e he => hpos e (List.mem_cons_of_mem a he)), ?_⟩
    · split
      · exact List.pairwise_singleton _ _
      · exact List.Pairwise.nil
    · intro x hx y hy
      have hxa : x.2 = a.start := by
        split at hx
        · rcases List.mem_singleton.mp hx with rfl; rfl
        · cases hx
      have hy1 := (findGaps_bounds minDur dayEnd rest (max c a.end_) y hy).1
      calc x.2 = a.start := hxa
        _ ≤ a.end_ := hpos a (List.mem_cons_self a rest)
        _ ≤ max c a.end_ := Nat.le_max_right _ _
        _ ≤ y.1 := hy1

/-- With a zero duration threshold the sweep covers the whole window:
every instant of `[c, dayEnd)` lies in an emitted gap or in an event
of the list. -/
theorem findGaps_cover (dayEnd : Nat) (L : List Ev) (c t : Nat)
    (h1 : c ≤ t) (h2 : t < dayEnd) :
    (∃ s ∈ findGaps 0 dayEnd c L, s.1 ≤ t ∧ t < s.2) ∨
    (∃ e ∈ L, e.start ≤ t ∧ t < e.end_) := by
  induction L generalizing c with
  | nil =>
    refine Or.inl ⟨(c, dayEnd), ?_, h1, h2⟩
    unfold findGaps
    have : c < dayEnd := Nat.lt_of_le_of_lt h1 h2
    simp [this]
  | cons e rest ih =>
    by_cases hts : t < e.start
    · refine Or.inl ⟨(c, e.start), ?_, h1, hts⟩
      unfold findGaps
      have : c < e.start := Nat.lt_of_le_of_lt h1 hts
      simp [this]
    · by_cases hte : t < e.end_
      · exact Or.inr ⟨e, List.mem_cons_self e rest, Nat.le_of_not_lt hts, hte⟩
      · have hmax : max c e.end_ ≤ t := Nat.max_le.mpr ⟨h1, Nat.le_of_not_lt hte⟩
        rcases ih (max c e.end_) hmax with ⟨s, hs, hst⟩ | ⟨f, hf, hft⟩
        · refine Or.inl ⟨s, ?_, hst⟩
          unfold findGaps
          exact List.mem_append_right _ hs
        · exact Or.inr ⟨f, List.mem_cons_of_mem e hf, hft⟩

/-! ## Claim theorems -/

/-- C7 counterexample: the oracle score 45.7 is stored as 45 — the
code truncates via `int(float(score))` — while coercion "via rounding"
as the claim states would store 46. -/
theorem score_rounding_counterexample :
    validateScore (.num (mkRat 457 10)) = 45 ∧ specRoundScore (mkRat 457 10) = 46 :=
  ⟨rfl, by norm_num [specRoundScore, round_eq]⟩

/-- C7 (amended): every stored score is an integer in `[0, 100]`; a
score `float()` rejects becomes the default 50; a numeric non-integer
score is truncated toward zero (not rounded) before clamping; an
in-range integer score is stored verbatim. -/
theorem score_validation_amended (s : JScore) (q : Rat) (n : Int) :
    validateScore s ≤ 100 ∧
    validateScore .bad = 50 ∧
    validateScore (.num q) = (max 0 (min 100 (truncToZero q))).toNat ∧
    (0 ≤ n → n ≤ 100 → (validateScore (.int n) : Int) = n) := by
  refine ⟨?_, rfl, rfl, ?_⟩
  · unfold validateScore
    cases s <;> simp
  · intro h1 h2
    unfold validateScore
    simp
    omega

/-- C7 witness: the amended claim at concrete inputs. -/
theorem score_validation_amended_witness :
    validateScore (.int 120) ≤ 100 ∧ (validateScore (.int 40) : Int) = 40 :=
  ⟨(score_validation_amended (.int 120) 0 0).1,
   (score_validation_amended .bad 0 40).2.2.2 (by decide) (by decide)⟩

/-- C10: the date gate of `predict_burnout_tool` rejects any date
strictly before today and any date strictly more than 7 days ahead,
before the oracle is consulted; in particular no date 8 to 13 days
ahead can reach the single-date prediction path. -/
theorem single_date_gate_window (today target : Int) :
    (target < today → singleDateGate today target = .errPast) ∧
    (today + 7 < target → singleDateGate today target = .errTooFar) ∧
    (8 ≤ target - today → target - today ≤ 13 → singleDateGate today target ≠ .proceed) := by
  unfold singleDateGate
  refine ⟨fun h => ?_, fun h => ?_, fun h1 h2 => ?_⟩
  · have : target - today < 0 := by omega
    simp [this]
  · have hn : ¬ target - today < 0 := by omega
    have : 7 < target - today := by omega
    simp [hn, this]
  · have hn : ¬ target - today < 0 := by omega
    have : 7 < target - today := by omega
    simp [hn, this]

/-- C10 witness: a date 9 days ahead is rejected as too far, and a
past date is rejected as past. -/
theorem single_date_gate_window_witness :
    singleDateGate 100 109 ≠ .proceed ∧ singleDateGate 100 99 = .errPast :=
  ⟨(single_date_gate_window 100 109).2.2 (by decide) (by decide),
   (single_date_gate_window 100 99).1 (by decide)⟩

/-- C8 counterexample: two concrete oracles.  Under the first, the
first model fails with a non-quota, non-404 error: the burnout chain
propagates it as fatal, but the optimizer chain silently advances and
succeeds with the next model.  Under the second, the first model's
quota error would succeed on a same-model retry: the burnout chain
returns the retried response, but the optimizer chain never retries
and answers from the next model instead. -/
theorem fallback_chain_counterexample :
    (fun (m : String) (_ : Nat) =>
        if m = "gemini-3-flash-preview" then Outcome.other else .ok "r2")
        "gemini-3-flash-preview" 0 = .other ∧
    optimizeChain
      (fun m _ => if m = "gemini-3-flash-preview" then Outcome.other else .ok "r2")
      optimizeModels = some "r2" ∧
    burnoutChain
      (fun m _ => if m = "gemini-3-flash-preview" then Outcome.other else .ok "r2")
      burnoutModels = .fatal ∧
    optimizeChain
      (fun m n =>
        if m = "gemini-3-flash-preview" then
          (if n = 0 then Outcome.quota else .ok "retry")
        else .ok "r2")
      optimizeModels = some "r2" ∧
    burnoutChain
      (fun m n =>
        if m = "gemini-3-flash-preview" then
          (if n = 0 then Outcome.quota else .ok "retry")
        else .ok "r2")
      burnoutModels = .success "retry" := ⟨rfl, rfl, rfl, rfl, rfl⟩

/-- C8 (amended): the claimed behaviour — one same-model retry on a
quota error, advance on not-found, fatal termination on anything else
— holds for the burnout/nap/meal chains, while the optimizer chain
advances to the next model on every failure class and never retries
the same model. -/
theorem fallback_chain_amended (oracle : String → Nat → Outcome)
    (m : String) (rest : List String) (s : String) :
    (oracle m 0 = .ok s → burnoutChain oracle (m :: rest) = .success s) ∧
    (oracle m 0 = .quota → oracle m 1 = .ok s →
      burnoutChain oracle (m :: rest) = .success s) ∧
    (oracle m 0 = .quota → (∀ t, oracle m 1 ≠ .ok t) →
      burnoutChain oracle (m :: rest) = burnoutChain oracle rest) ∧
    (oracle m 0 = .notFound → burnoutChain oracle (m :: rest) = burnoutChain oracle rest) ∧
    (oracle m 0 = .other → burnoutChain oracle (m :: rest) = .fatal) ∧
    ((∀ t, oracle m 0 ≠ .ok t) → optimizeChain oracle (m :: rest) = optimizeChain oracle rest) := by
  refine ⟨fun h => ?_, fun h h1 => ?_, fun h h1 => ?_, fun h => ?_, fun h => ?_, fun h => ?_⟩
  · rw [burnoutChain, h]
  · rw [burnoutChain, h, h1]
  · rw [burnoutChain, h]
    cases h2 : oracle m 1 with
    | ok t => exact absurd h2 (h1 t)
    | quota => rfl
    | notFound => rfl
    | other => rfl
  · rw [burnoutChain, h]
  · rw [burnoutChain, h]
  · rw [optimizeChain]
    cases h2 : oracle m 0 with
    | ok t => exact absurd h2 (h t)
    | quota => rfl
    | notFound => rfl
    | other => rfl

/-- C8 witness: the amended claim at a concrete oracle — a fatal
first-model error in the burnout chain, and the optimizer advancing
over it. -/
theorem fallback_chain_amended_witness :
    burnoutChain (fun _ _ => Outcome.other) ("a" :: ["b"]) = .fatal ∧
    optimizeChain (fun _ _ => Outcome.other) ("a" :: ["b"]) =
      optimizeChain (fun _ _ => Outcome.other) ["b"] :=
  ⟨(fallback_chain_amended (fun _ _ => Outcome.other) "a" ["b"] "").2.2.2.2.1 rfl,
   (fallback_chain_amended (fun _ _ => Outcome.other) "a" ["b"] "").2.2.2.2.2
     (fun t h => by cases h)⟩

/-- C9 counterexample: a record whose end string parses to a time
before its start is accepted by normalization with `end < start`,
violating the claimed `end > start` invariant. -/
theorem normalization_end_counterexample :
    normalizeEvent ⟨"E", some (some 600), .strField (some 540)⟩ = some ⟨"E", 600, 540⟩ ∧
    ¬ (540 > 600) := ⟨rfl, by decide⟩

/-- C9 (amended): `end > start` holds for records whose end timestamp
is missing or not a string (they get `end = start + 1h`), but a record
with a parseable end string is stored verbatim even when its end is
not after its start; a record whose start is missing or unparseable is
skipped, and a skipped record never affects the normalization of the
remaining records. -/
theorem normalization_amended (es₁ es₂ : List RawEvent) (r : RawEvent) (s : Nat) :
    (r.startField = some (some s) → r.endField = .missing ∨ r.endField = .nonString →
      normalizeEvent r = some ⟨r.title, s, s + 60⟩ ∧ s < s + 60) ∧
    (r.startField = none ∨ r.startField = some none → normalizeEvent r = none) ∧
    (normalizeEvent r = none →
      normalizeAll (es₁ ++ r :: es₂) = normalizeAll es₁ ++ normalizeAll es₂) := by
  refine ⟨fun hs he => ?_, fun hs => ?_, fun hr => ?_⟩
  · unfold normalizeEvent
    rw [hs]
    rcases he with he | he <;> rw [he] <;> exact ⟨rfl, by omega⟩
  · unfold normalizeEvent
    rcases hs with hs | hs <;> rw [hs]
  · unfold normalizeAll
    rw [List.filterMap_append, List.filterMap_cons, hr]

/-- C9 witness: the amended claim at a concrete record with a missing
end and at a concrete unparseable record dropped mid-list. -/
theorem normalization_amended_witness :
    normalizeEvent ⟨"A", some (some 10), .missing⟩ = some ⟨"A", 10, 70⟩ ∧
    normalizeAll [⟨"B", some (some 5), .missing⟩, ⟨"C", some none, .missing⟩,
        ⟨"D", some (some 7), .missing⟩] =
      normalizeAll [⟨"B", some (some 5), .missing⟩] ++
        normalizeAll [⟨"D", some (some 7), .missing⟩] :=
  ⟨((normalization_amended [] [] ⟨"A", some (some 10), .missing⟩ 10).1 rfl (Or.inl rfl)).1,
   (normalization_amended [⟨"B", some (some 5), .missing⟩]
      [⟨"D", some (some 7), .missing⟩] ⟨"C", some none, .missing⟩ 0).2.2 rfl⟩

/-- A resolved proposal differs from the submitted one at most in its
`event_id`, which then names a malleable event. -/
theorem resolveProposal_spec (malleable : List PEvent) (c c2 : Proposal)
    (h : resolveProposal malleable c = some c2) :
    (∃ m ∈ malleable, m.id = c2.event_id) ∧
    c2.action = c.action ∧ c2.proposed_start = c.proposed_start ∧
    c2.proposed_end = c.proposed_end ∧ c2.current_start = c.current_start := by
  unfold resolveProposal at h
  split at h
  · rcases (Option.some.injEq _ _).mp h with rfl
    rename_i hid
    obtain ⟨ev, hev⟩ := Option.isSome_iff_exists.mp hid
    unfold idLookup at hev
    have hmem : ev ∈ malleable := List.mem_reverse.mp (List.mem_of_find?_eq_some hev)
    have hpid := List.find?_some hev
    simp only [decide_eq_true_eq] at hpid
    exact ⟨⟨ev, hmem, hpid⟩, rfl, rfl, rfl, rfl⟩
  · split at h
    · rcases (Option.some.injEq _ _).mp h with rfl
      rename_i ev hev
      unfold titleLookup at hev
      have hmem : ev ∈ malleable := List.mem_reverse.mp (List.mem_of_find?_eq_some hev)
      exact ⟨⟨ev, hmem, rfl⟩, rfl, rfl, rfl, rfl⟩
    · cases h

/-- A proposal passing the constraint step is returned unchanged, its
three timestamps parse, the move stays on its day, and it clears every
fixed event on the proposed date. -/
theorem checkProposal_spec (fixed : List PEvent) (c2 p : Proposal)
    (h : checkProposal fixed c2 = some p) :
    p = c2 ∧
    ∃ ps pe cs, c2.proposed_start = some ps ∧ c2.proposed_end = some pe ∧
      c2.current_start = some cs ∧ dateOf ps = dateOf cs ∧
      ∀ f ∈ fixed, dateOf f.start = dateOf ps → ¬ (ps < f.end_ ∧ f.start < pe) := by
  unfold checkProposal at h
  split at h
  · rename_i ps pe cs hps hpe hcs
    by_cases hdate : dateOf ps ≠ dateOf cs
    · rw [if_pos hdate] at h; cases h
    · rw [if_neg hdate] at h
      by_cases hov : overlapsFixed fixed ps pe = true
      · rw [if_pos hov] at h; cases h
      · rw [if_neg hov] at h
        rcases (Option.some.injEq _ _).mp h with rfl
        refine ⟨rfl, ps, pe, cs, hps, hpe, hcs, not_not.mp hdate, ?_⟩
        intro f hf hfd hcon
        apply hov
        unfold overlapsFixed
        rw [List.any_eq_true]
        exact ⟨f, hf, decide_eq_true ⟨hfd, hcon⟩⟩
  · cases h

/-- C1: every proposal returned by the optimizer's validator has
action `move`, an `event_id` naming a malleable event (resolved
directly or through the case-insensitive title fallback), three
parseable timestamps, a proposed start on the same calendar date as
the current start, and a proposed interval `[ps, pe)` that does not
overlap `[f.start, f.end)` for any fixed event `f` on the proposed
date — for every oracle change set, including adversarial ones. -/
theorem optimize_validated_changes_safe (malleable fixed : List PEvent)
    (changes : List Proposal) (p : Proposal)
    (hp : p ∈ validateChanges malleable fixed changes) :
    p.action = "move" ∧
    (∃ m ∈ malleable, m.id = p.event_id) ∧
    ∃ ps pe cs, p.proposed_start = some ps ∧ p.proposed_end = some pe ∧
      p.current_start = some cs ∧ dateOf ps = dateOf cs ∧
      ∀ f ∈ fixed, dateOf f.start = dateOf ps → ¬ (ps < f.end_ ∧ f.start < pe) := by
  unfold validateChanges at hp
  obtain ⟨c, hcf, hv⟩ := List.mem_filterMap.mp hp
  have hmove : c.action = "move" := by
    have := (List.mem_filter.mp hcf).2
    simpa using this
  unfold validateOne at hv
  obtain ⟨c2, hres, hchk⟩ := Option.bind_eq_some.mp hv
  obtain ⟨hid, hact, hpsf, hpef, hcsf⟩ := resolveProposal_spec malleable c c2 hres
  obtain ⟨rfl, ps, pe, cs, hps, hpe, hcs, hdate, hov⟩ := checkProposal_spec fixed c2 p hchk
  exact ⟨hact.trans hmove, hid, ps, pe, cs, hps, hpe, hcs, hdate, hov⟩

/-- C1 witness: a concrete adversary-independent instance — one
malleable lunch, one fixed class, one surviving move proposal — at
which the theorem's guarantees evaluate. -/
theorem optimize_validated_changes_safe_witness :
    (⟨"m1", "Lunch", "move", some 60720, some 60900, some 60960⟩ : Proposal).action = "move" ∧
    (∃ m ∈ [(⟨"m1", "Lunch", 60720, 60780⟩ : PEvent)],
      m.id = (⟨"m1", "Lunch", "move", some 60720, some 60900,
        some 60960⟩ : Proposal).event_id) ∧
    ∃ ps pe cs,
      (⟨"m1", "Lunch", "move", some 60720, some 60900,
        some 60960⟩ : Proposal).proposed_start = some ps ∧
      (⟨"m1", "Lunch", "move", some 60720, some 60900,
        some 60960⟩ : Proposal).proposed_end = some pe ∧
      (⟨"m1", "Lunch", "move", some 60720, some 60900,
        some 60960⟩ : Proposal).current_start = some cs ∧
      dateOf ps = dateOf cs ∧
      ∀ f ∈ [(⟨"f1", "pstat171", 61320, 61380⟩ : PEvent)],
        dateOf f.start = dateOf ps → ¬ (ps < f.end_ ∧ f.start < pe) :=
  optimize_validated_changes_safe
    [⟨"m1", "Lunch", 60720, 60780⟩] [⟨"f1", "pstat171", 61320, 61380⟩]
    [⟨"m1", "Lunch", "move", some 60720, some 60900, some 60960⟩]
    ⟨"m1", "Lunch", "move", some 60720, some 60900, some 60960⟩
    (by decide)

/-- C5 counterexample: with the 30-minute threshold of the nap tool,
an event from 8:20 to 22:00 in the 8:00-22:00 window leaves the
20-minute gap at 8:00 uncovered — it is neither a returned slot (too
short) nor inside an event — so the returned slots and the events do
not partition the window. -/
theorem free_slot_partition_counterexample :
    ¬ ((∃ s ∈ freeSlots [⟨"E", 500, 1320⟩] 480 1320 30, s.1 ≤ 480 ∧ 480 < s.2) ∨
       (∃ e ∈ [(⟨"E", 500, 1320⟩ : Ev)], e.start ≤ 480 ∧ 480 < e.end_)) := by
  decide

/-- C5 (amended): the empty event set yields exactly the whole-window
slot; with a zero duration threshold the returned slots and the events
cover every instant of `[dayStart, dayEnd)` — with a positive
threshold only the gaps of at least that length are returned, so
shorter gaps are uncovered; returned slots never overlap an event; and
for events with non-negative durations the returned slots are pairwise
disjoint and ordered. -/
theorem free_slot_partition_amended (events : List Ev) (dayStart dayEnd minDur : Nat) :
    (events = [] → freeSlots events dayStart dayEnd minDur = [(dayStart, dayEnd)]) ∧
    (∀ t, dayStart ≤ t → t < dayEnd →
      (∃ s ∈ freeSlots events dayStart dayEnd 0, s.1 ≤ t ∧ t < s.2) ∨
      (∃ e ∈ events, e.start ≤ t ∧ t < e.end_)) ∧
    (∀ s ∈ freeSlots events dayStart dayEnd minDur, ∀ e ∈ events,
      s.2 ≤ e.start ∨ e.end_ ≤ s.1) ∧
    ((∀ e ∈ events, e.start ≤ e.end_) →
      (freeSlots events dayStart dayEnd minDur).Pairwise (fun a b => a.2 ≤ b.1)) := by
  have hperm := List.perm_insertionSort evLE events
  have hsort : (List.insertionSort evLE events).Pairwise evLE :=
    List.sorted_insertionSort evLE events
  refine ⟨fun he => ?_, fun t h1 h2 => ?_, fun s hs e he => ?_, fun hpos => ?_⟩
  · rw [he]; rfl
  · by_cases hne : events.isEmpty = true
    · have he : events = [] := List.isEmpty_iff.mp hne
      subst he
      exact Or.inl ⟨(dayStart, dayEnd), List.mem_singleton.mpr rfl, h1, h2⟩
    · unfold freeSlots
      rw [if_neg hne]
      rcases findGaps_cover dayEnd (List.insertionSort evLE events) dayStart t h1 h2 with
        ⟨s, hs, hst⟩ | ⟨e, hemem, het⟩
      · exact Or.inl ⟨s, hs, hst⟩
      · exact Or.inr ⟨e, hperm.mem_iff.mp hemem, het⟩
  · by_cases hne : events.isEmpty = true
    · rw [List.isEmpty_iff.mp hne] at he
      cases he
    · unfold freeSlots at hs
      rw [if_neg hne] at hs
      exact findGaps_disjoint minDur dayEnd _ dayStart hsort s hs e (hperm.mem_iff.mpr he)
  · by_cases hne : events.isEmpty = true
    · have he : events = [] := List.isEmpty_iff.mp hne
      subst he
      exact List.pairwise_singleton _ _
    · unfold freeSlots
      rw [if_neg hne]
      exact findGaps_pairwise minDur dayEnd _ dayStart hsort
        (fun e he => hpos e (hperm.mem_iff.mp he))

/-- C5 witness: the amended claim evaluated on one event 9:00-10:00 in
the 8:00-22:00 window — the empty case, coverage at 8:00, slot/event
disjointness for the first returned slot, and ordered slots. -/
theorem free_slot_partition_amended_witness :
    freeSlots [] 480 1320 30 = [(480, 1320)] ∧
    ((∃ s ∈ freeSlots [⟨"A", 540, 600⟩] 480 1320 0, s.1 ≤ 480 ∧ 480 < s.2) ∨
      (∃ e ∈ [(⟨"A", 540, 600⟩ : Ev)], e.start ≤ 480 ∧ 480 < e.end_)) ∧
    ((480, 540).2 ≤ (⟨"A", 540, 600⟩ : Ev).start ∨ (⟨"A", 540, 600⟩ : Ev).end_ ≤ (480, 540).1) ∧
    (freeSlots [⟨"A", 540, 600⟩] 480 1320 30).Pairwise (fun a b => a.2 ≤ b.1) :=
  ⟨(free_slot_partition_amended [] 480 1320 30).1 rfl,
   (free_slot_partition_amended [⟨"A", 540, 600⟩] 480 1320 30).2.1 480
     (Nat.le_refl 480) (by decide),
   (free_slot_partition_amended [⟨"A", 540, 600⟩] 480 1320 30).2.2.1 (480, 540)
     (by decide) ⟨"A", 540, 600⟩ (by decide),
   (free_slot_partition_amended [⟨"A", 540, 600⟩] 480 1320 30).2.2.2
     (by decide)⟩

/-- C6: the voice-adjustment applier leaves the cache untouched when
the stress signal is false or no event matched; it never creates a
prediction; dates outside the matched set are untouched; and over the
ascending distinct matched dates, the first date's cached score gains
`+5` and every later date's cached score gains `+3`, saturated at 100,
with uncached matched dates skipped. -/
theorem voice_adjustment_correct (stressed : Bool) (matched : List MatchedEvent)
    (preds : Nat → Option Pred) :
    (stressed = false ∨ matched = [] → voiceApply stressed matched preds = preds) ∧
    (∀ d, preds d = none → voiceApply stressed matched preds d = none) ∧
    (∀ d, d ∉ voiceDates matched → voiceApply stressed matched preds d = preds d) ∧
    (∀ d0 rest, voiceDates matched = d0 :: rest →
      (∀ p, preds d0 = some p →
        voiceApply true matched preds d0 = some (voiceAdjust p 5) ∧
        (voiceAdjust p 5).score = min 100 (p.score + 5)) ∧
      (∀ d ∈ rest, ∀ p, preds d = some p →
        voiceApply true matched preds d = some (voiceAdjust p 3) ∧
        (voiceAdjust p 3).score = min 100 (p.score + 3))) := by
  refine ⟨fun h => ?_, fun d hd => ?_, fun d hd => ?_, fun d0 rest hds => ?_⟩
  · unfold voiceApply
    rcases h with rfl | rfl
    · rfl
    · simp
  · unfold voiceApply
    split
    · exact applyDates_none _ _ _ _ hd
    · exact hd
  · unfold voiceApply
    split
    · exact applyDates_not_mem _ _ _ _ hd
    · rfl
  · have hmne : matched ≠ [] := by
      intro he
      rw [he, voiceDates_nil] at hds
      cases hds
    have happ : voiceApply true matched preds = applyDates 0 (voiceDates matched) preds := by
      unfold voiceApply
      rw [if_pos]
      simp [List.isEmpty_iff, hmne]
    have hnd := voiceDates_nodup matched
    rw [hds] at hnd
    have hd0rest : d0 ∉ rest := (List.nodup_cons.mp hnd).1
    have hndrest : rest.Nodup := (List.nodup_cons.mp hnd).2
    constructor
    · intro p hp
      refine ⟨?_, rfl⟩
      rw [happ, hds, applyDates, applyDates_not_mem _ _ _ _ hd0rest]
      unfold stepAdjust
      rw [hp]
      simp
    · intro d hdrest p hp
      refine ⟨?_, rfl⟩
      have hdd0 : d ≠ d0 := fun he => hd0rest (he ▸ hdrest)
      rw [happ, hds, applyDates]
      have hstep : stepAdjust preds 0 d0 d = some p :=
        (stepAdjust_ne preds 0 d0 d hdd0).trans hp
      exact applyDates_mem_pos rest 1 _ d p hndrest hdrest hstep (by decide)

/-- C6 witness: two matched events on two dates (mentioned out of
order), both cached: the earlier date gains +5 (40 to 45) and the
later +3 (60 to 63). -/
theorem voice_adjustment_correct_witness :
    voiceApply true [⟨"A", 34⟩, ⟨"B", 33⟩]
      (fun d => if d = 33 then some ⟨40, "building", "a"⟩
        else if d = 34 then some ⟨60, "high-risk", "b"⟩ else none)
      33 = some (voiceAdjust ⟨40, "building", "a"⟩ 5) ∧
    voiceApply true [⟨"A", 34⟩, ⟨"B", 33⟩]
      (fun d => if d = 33 then some ⟨40, "building", "a"⟩
        else if d = 34 then some ⟨60, "high-risk", "b"⟩ else none)
      34 = some (voiceAdjust ⟨60, "high-risk", "b"⟩ 3) :=
  ⟨(((voice_adjustment_correct true [⟨"A", 34⟩, ⟨"B", 33⟩]
      (fun d => if d = 33 then some ⟨40, "building", "a"⟩
        else if d = 34 then some ⟨60, "high-risk", "b"⟩ else none)).2.2.2
      33 [34] (by decide)).1 ⟨40, "building", "a"⟩ rfl).1,
   (((voice_adjustment_correct true [⟨"A", 34⟩, ⟨"B", 33⟩]
      (fun d => if d = 33 then some ⟨40, "building", "a"⟩
        else if d = 34 then some ⟨60, "high-risk", "b"⟩ else none)).2.2.2
      33 [34] (by decide)).2 34
      (List.mem_singleton.mpr rfl) ⟨60, "high-risk", "b"⟩ rfl).1⟩

/-- C2 counterexample: the batch refresh accepts an oracle response
with an empty `predictions` array — it stores the empty map and
reports success (calendar_agent.py lines 1714-1731 run for any parsed
response) — so with today = 2026-02-01 the stored key set does not
contain today, let alone the 14-day range. -/
theorem batch_coverage_counterexample :
    validatePredictions [] = [] ∧
    "2026-02-01" ∉ predKeys (cacheAfterRefresh "u" "t" "00:00" "08:00" []).predictions :=
  ⟨rfl, by simp [cacheAfterRefresh, validatePredictions, predKeys]⟩

/-- C2 (amended): the stored key set after a refresh contains exactly
the non-empty date strings of the oracle response; the 14-day coverage
`{today..today+13} ⊆ keys` therefore holds precisely when the oracle
returns an entry for each of those dates, which the code does not
check. -/
theorem batch_coverage_amended (uid now st wt : String) (resp : List OPred)
    (expected : List String)
    (h : ∀ d ∈ expected, d ≠ "" ∧ ∃ p ∈ resp, p.date = some d) :
    ∀ d ∈ expected, d ∈ predKeys (cacheAfterRefresh uid now st wt resp).predictions := by
  intro d hd
  obtain ⟨hne, hex⟩ := h d hd
  exact (mem_predKeys_validatePredictions resp d hne).mpr hex

/-- C2 witness: a response covering the one expected date yields a key
set containing it. -/
theorem batch_coverage_amended_witness :
    "2026-02-01" ∈ predKeys
      (cacheAfterRefresh "u" "t" "00:00" "08:00"
        [⟨some "2026-02-01", .int 20, "x"⟩]).predictions :=
  batch_coverage_amended "u" "t" "00:00" "08:00"
    [⟨some "2026-02-01", .int 20, "x"⟩] ["2026-02-01"]
    (by intro d hd
        rcases List.mem_singleton.mp hd with rfl
        exact ⟨by decide, (⟨some "2026-02-01", .int 20, "x"⟩ : OPred),
          List.mem_singleton.mpr rfl, rfl⟩)
    "2026-02-01" (List.mem_singleton.mpr rfl)

/-- C3 counterexample: a voice adjustment that raises a cached score
from 65 to 70 stores status `critical` (api_server.py lines
1251-1258 use `>= 70`), while the threshold function of §3 — the one
the batch tools use — maps 70 to `high-risk`; the stored status
disagrees with the threshold-derived value. -/
theorem status_threshold_counterexample :
    voiceApply true [⟨"Exam", 15⟩]
        (fun d => if d = 15 then some ⟨65, "high-risk", "r"⟩ else none)
        15 = some ⟨70, "critical", "r"⟩ ∧
    statusOf 70 = "high-risk" ∧ ("critical" : String) ≠ "high-risk" :=
  ⟨rfl, rfl, by decide⟩

/-- C3 (amended): predictions stored by the batch refresh satisfy
`status = statusOf score`; predictions rewritten by the voice
adjuster satisfy `status = voiceStatus newScore` instead, and the two
threshold functions agree everywhere except at the boundary scores
30, 50 and 70. -/
theorem status_threshold_amended (resp : List OPred) (e : String × Pred)
    (p : Pred) (i s : Nat) :
    (e ∈ validatePredictions resp → e.2.status = statusOf e.2.score) ∧
    (voiceAdjust p i).status = voiceStatus (voiceAdjust p i).score ∧
    (s ≠ 30 → s ≠ 50 → s ≠ 70 → voiceStatus s = statusOf s) := by
  refine ⟨fun he => ?_, rfl, fun h30 h50 h70 => ?_⟩
  · unfold validatePredictions at he
    obtain ⟨p2, _, hp2⟩ := List.mem_filterMap.mp he
    obtain ⟨d, _, hif⟩ := Option.bind_eq_some.mp hp2
    split at hif
    · exact absurd hif (by simp)
    · rcases (Option.some.injEq _ _).mp hif with rfl
      rfl
  · unfold voiceStatus statusOf
    split_ifs <;> first | rfl | omega

/-- C3 witness: the amended claim at a concrete batch entry and at a
non-boundary score. -/
theorem status_threshold_amended_witness :
    ("2026-02-01", (⟨20, "stable", "x"⟩ : Pred)).2.status =
      statusOf (("2026-02-01", (⟨20, "stable", "x"⟩ : Pred)).2.score) ∧
    voiceStatus 42 = statusOf 42 :=
  ⟨(status_threshold_amended [⟨some "2026-02-01", .int 20, "x"⟩]
      ("2026-02-01", ⟨20, "stable", "x"⟩) ⟨0, "", ""⟩ 0 0).1 (by decide),
   (status_threshold_amended [] ("", ⟨0, "", ""⟩) ⟨0, "", ""⟩ 0 42).2.2
      (by decide) (by decide) (by decide)⟩

/-- C4 counterexample: a cache holding a past-date prediction and the
`voice_updated_at` field is refreshed with a response for today only;
the past date is gone from the stored predictions and the extra field
is gone from the written file. -/
theorem refresh_frame_counterexample :
    "2026-01-01" ∈ predKeys
      (Cache.mk "u" "t0" "00:00" "08:00"
        [("2026-01-01", ⟨20, "stable", "old"⟩)] (some "v1")).predictions ∧
    "2026-01-01" ∉ predKeys
      (cacheAfterRefresh "u" "t1" "00:00" "08:00"
        [⟨some "2026-02-01", .int 40, "r"⟩]).predictions ∧
    (Cache.mk "u" "t0" "00:00" "08:00"
        [("2026-01-01", ⟨20, "stable", "old"⟩)] (some "v1")).voice_updated_at = some "v1" ∧
    (cacheAfterRefresh "u" "t1" "00:00" "08:00"
        [⟨some "2026-02-01", .int 40, "r"⟩]).voice_updated_at = none := by
  refine ⟨by simp [predKeys], ?_, rfl, rfl⟩
  simp [cacheAfterRefresh, validatePredictions, predKeys, validatedEntry]

/-- C4 (amended): the refresh writes a fresh cache object: a non-empty
date is a stored key precisely when the oracle response carries it —
so a past date survives only if the oracle re-returned it — and every
field beyond `user_id`, `cached_at`, `sleep_time`, `wake_time` and
`predictions` is discarded (`voice_updated_at` comes back `none`). -/
theorem refresh_frame_amended (uid now st wt : String) (resp : List OPred)
    (d : String) (hd : d ≠ "") :
    (d ∈ predKeys (cacheAfterRefresh uid now st wt resp).predictions ↔
      ∃ p ∈ resp, p.date = some d) ∧
    (cacheAfterRefresh uid now st wt resp).voice_updated_at = none ∧
    (cacheAfterRefresh uid now st wt resp).cached_at = now :=
  ⟨mem_predKeys_validatePredictions resp d hd, rfl, rfl⟩

/-- C4 witness: the amended claim at a concrete refresh — the old past
date is not a key because the response does not mention it. -/
theorem refresh_frame_amended_witness :
    "2026-01-01" ∉ predKeys
      (cacheAfterRefresh "u" "t1" "00:00" "08:00"
        [⟨some "2026-02-01", .int 40, "r"⟩]).predictions :=
  fun hmem =>
    absurd ((refresh_frame_amended "u" "t1" "00:00" "08:00"
        [⟨some "2026-02-01", .int 40, "r"⟩] "2026-01-01" (by decide)).1.mp hmem)
      (by decide)

end CalendarAgent
